import Mathlib

/-!
Shallow embedding of the frello repository: a five-route todo CRUD API
(`src/api/src/routers/todos.ts`) over a Prisma/SQLite store, plus the
frontend toggle button (`UpdateButtonComponent`). Stateful ORM calls are
embedded as explicit state passing on a `Store` value; calls that can
reject (Prisma `update`/`delete` on a missing id) return `Except`.
-/

namespace Frello

/-- A Todo record. Modelled from the spec: the Prisma schema file
(`prisma/schema.prisma`) is not among the sources, only its tutorial
transcription; the spec gives the data model as `id` integer
(server-assigned), `title` string required, `description` nullable,
`is_done` boolean defaulting to `false`, and resolves the tutorial
transcription writing `name` where every route and component uses
`title` in favour of `title`. -/
structure Todo where
  id : Nat
  title : String
  description : Option String
  is_done : Bool
deriving Repr, DecidableEq

/-- The server-side store: the rows of the `Todo` table together with the
SQLite autoincrement counter (the id the next insert will receive). -/
structure Store where
  todos : List Todo
  nextId : Nat
deriving Repr, DecidableEq

/-- Fresh database: no rows, autoincrement starts at 1. -/
def initStore : Store := ⟨[], 1⟩

/-- Embeds `db.todo.findMany()`: every record. -/
def findMany (s : Store) : List Todo := s.todos

/-- Embeds `db.todo.findUnique` keyed by id: the matching record or `none`. -/
def findUnique (s : Store) (i : Nat) : Option Todo :=
  s.todos.find? fun t => t.id == i

/-- Data accepted by `db.todo.create` as the POST handler calls it:
only `title` and `description` are passed. -/
structure CreateData where
  title : String
  description : Option String
deriving Repr, DecidableEq

/-- Embeds `db.todo.create`: insert a row with the autoincrement id and
the schema default `is_done = false`; returns the created record and the
new store. -/
def create (s : Store) (d : CreateData) : Todo × Store :=
  let t : Todo := ⟨s.nextId, d.title, d.description, false⟩
  (t, ⟨s.todos ++ [t], s.nextId + 1⟩)

/-- Data accepted by `db.todo.update` as the PUT handler calls it. A field
destructured from the request body may be absent (JS `undefined`), which
Prisma skips: the outer `Option` is presence. For `description` the inner
`Option` is the nullable column value itself. -/
structure UpdateData where
  title : Option String
  description : Option (Option String)
  is_done : Option Bool
deriving Repr, DecidableEq

/-- Overwrite exactly the provided fields of one record; the id column is
not part of the update data. -/
def applyUpdate (d : UpdateData) (t : Todo) : Todo :=
  ⟨t.id, d.title.getD t.title, d.description.getD t.description,
   d.is_done.getD t.is_done⟩

/-- Embeds `db.todo.update` keyed by id: rewrites the matching row, or
rejects (Prisma error P2025) without touching the store when no row
matches. -/
def update (s : Store) (i : Nat) (d : UpdateData) : Except String Store :=
  if s.todos.any fun t => t.id == i then
    .ok ⟨s.todos.map fun t => if t.id == i then applyUpdate d t else t, s.nextId⟩
  else
    .error "P2025: record to update not found"

/-- Embeds `db.todo.delete` keyed by id: removes the matching row, or
rejects (Prisma error P2025) without touching the store when no row
matches. -/
def delete (s : Store) (i : Nat) : Except String Store :=
  if s.todos.any fun t => t.id == i then
    .ok ⟨s.todos.filter fun t => t.id != i, s.nextId⟩
  else
    .error "P2025: record to delete not found"

/-- JSON payload of an HTTP response or request body, as the routes
produce them: `res.status(204).send()` sends an empty body, `res.json`
sends a todo, a list, or the JSON literal null. -/
inductive JsonBody where
  | empty
  | null
  | todoJson (t : Todo)
  | todoList (ts : List Todo)
deriving Repr, DecidableEq

/-- An HTTP response: status code and body. -/
structure Response where
  status : Nat
  body : JsonBody
deriving Repr, DecidableEq

/-- The body a client may POST. The handler destructures only `title` and
`description`; `is_done` and `id` are carried here so that their being
ignored is provable. -/
structure PostBody where
  title : String
  description : Option String
  is_done : Option Bool
  id : Option Nat
deriving Repr, DecidableEq

/-- The body a client may PUT. The handler destructures only `title`,
`description` and `is_done`; `id` (always present when the client spreads
the full record) is carried here so that its being ignored is provable. -/
structure PutBody where
  title : Option String
  description : Option (Option String)
  is_done : Option Bool
  id : Option Nat
deriving Repr, DecidableEq

/-- The update data the PUT handler builds from a request body. -/
def PutBody.toData (b : PutBody) : UpdateData :=
  ⟨b.title, b.description, b.is_done⟩

/-- Embeds GET /api/todos: `res.json(await db.todo.findMany())`. -/
def getAllHandler (s : Store) : Response × Store :=
  (⟨200, .todoList (findMany s)⟩, s)

/-- Embeds GET /api/todos/:id: `res.json` of the `findUnique` result,
which is the JSON literal null when no record matches. -/
def getByIdHandler (s : Store) (i : Nat) : Response × Store :=
  match findUnique s i with
  | some t => (⟨200, .todoJson t⟩, s)
  | none => (⟨200, .null⟩, s)

/-- Embeds POST /api/todos: create from `title` and `description` only,
respond 201 with the created record. -/
def postHandler (s : Store) (b : PostBody) : Response × Store :=
  let r := create s ⟨b.title, b.description⟩
  (⟨201, .todoJson r.1⟩, r.2)

/-- Embeds PUT /api/todos/:id: update, then respond 204 with no body; a
store rejection propagates (the handler has no catch), so no response is
produced on that path. -/
def putHandler (s : Store) (i : Nat) (b : PutBody) :
    Except String (Response × Store) :=
  (update s i b.toData).map fun s2 => (⟨204, .empty⟩, s2)

/-- Embeds DELETE /api/todos/:id: delete, then respond 204 with no body; a
store rejection propagates (the handler has no catch), so no response is
produced on that path. -/
def deleteHandler (s : Store) (i : Nat) : Except String (Response × Store) :=
  (delete s i).map fun s2 => (⟨204, .empty⟩, s2)

/-- One API operation, as named by the five routes. -/
inductive Op where
  | listAll
  | getOne (i : Nat)
  | post (b : PostBody)
  | put (i : Nat) (b : PutBody)
  | del (i : Nat)
deriving Repr, DecidableEq

/-- Store state after one request. A rejected PUT or DELETE throws before
any row is written, so the store is unchanged on that path. -/
def stepStore (s : Store) (op : Op) : Store :=
  match op with
  | .listAll => (getAllHandler s).2
  | .getOne i => (getByIdHandler s i).2
  | .post b => (postHandler s b).2
  | .put i b => match putHandler s i b with | .ok r => r.2 | .error _ => s
  | .del i => match deleteHandler s i with | .ok r => r.2 | .error _ => s

/-- Store state after a sequence of requests from a given state. -/
def runFrom (s : Store) (ops : List Op) : Store := ops.foldl stepStore s

/-- Store state after a sequence of requests from the fresh database. -/
def runOps (ops : List Op) : Store := runFrom initStore ops

/-- An HTTP request as the frontend fetch calls build it. -/
structure HttpRequest where
  method : String
  url : String
  body : JsonBody
deriving Repr, DecidableEq

/-- Embeds `completeTodo` of UpdateButton.tsx: a PUT to the todo id URL
whose body is the spread of the full record with `is_done` replaced. -/
def completeTodo (todo : Todo) (is_done : Bool) : HttpRequest :=
  ⟨"PUT", "http://localhost:3000/api/todos/" ++ toString todo.id,
   .todoJson ⟨todo.id, todo.title, todo.description, is_done⟩⟩

/-- What clicking a button does: the request it sends, and whether the
list refetch is chained after the request resolves. -/
structure ClickAction where
  request : HttpRequest
  refetchAfter : Bool
deriving Repr, DecidableEq

/-- A rendered button: its label and its click action. -/
structure ButtonView where
  label : String
  onClick : ClickAction
deriving Repr, DecidableEq

/-- Embeds `UpdateButtonComponent`: when the todo is done, a button
labelled Completed that sends `is_done = false`; otherwise a button
labelled Pending that sends `is_done = true`; both chain `refetch`. -/
def UpdateButtonComponent (todo : Todo) : ButtonView :=
  if todo.is_done then
    ⟨"Completed", ⟨completeTodo todo false, true⟩⟩
  else
    ⟨"Pending", ⟨completeTodo todo true, true⟩⟩

/-! ## Helper lemmas -/

/-- Updating a record never changes its id: the id column is not part of
the update data. -/
theorem applyUpdate_id (d : UpdateData) (t : Todo) :
    (applyUpdate d t).id = t.id := rfl

/-- A found record makes the existence test true. -/
theorem any_of_find (l : List Todo) (p : Todo → Bool) (t : Todo)
    (h : l.find? p = some t) : l.any p = true :=
  List.any_eq_true.mpr ⟨t, List.mem_of_find?_eq_some h, List.find?_some h⟩

/-- After rewriting the matching rows, the lookup finds the rewritten
record. -/
theorem find_after_update (l : List Todo) (i : Nat) (d : UpdateData) (t : Todo)
    (h : l.find? (fun u => u.id == i) = some t) :
    (l.map fun u => if u.id == i then applyUpdate d u else u).find?
      (fun u => u.id == i) = some (applyUpdate d t) := by
  induction l with
  | nil => simp at h
  | cons a l ih =>
    cases hb : (a.id == i) with
    | true =>
      simp only [List.find?_cons, hb] at h
      injection h with h2
      subst h2
      have hfa : (if (a.id == i) = true then applyUpdate d a else a)
          = applyUpdate d a := if_pos hb
      have hpa : ((applyUpdate d a).id == i) = true := by
        rw [applyUpdate_id]; exact hb
      rw [List.map_cons, hfa, List.find?_cons, hpa]
    | false =>
      simp only [List.find?_cons, hb] at h
      have hfa : (if (a.id == i) = true then applyUpdate d a else a) = a :=
        if_neg (fun hc => by rw [hb] at hc; exact Bool.noConfusion hc)
      rw [List.map_cons, hfa, List.find?_cons, hb]
      exact ih h

/-- The rewritten row list keeps exactly the old ids, in order. -/
theorem map_id_update (l : List Todo) (i : Nat) (d : UpdateData) :
    (l.map fun u => if u.id == i then applyUpdate d u else u).map Todo.id
      = l.map Todo.id := by
  rw [List.map_map]
  refine List.map_congr_left fun u _ => ?_
  by_cases hu : (u.id == i) = true
  · show (if (u.id == i) = true then applyUpdate d u else u).id = u.id
    rw [if_pos hu, applyUpdate_id]
  · show (if (u.id == i) = true then applyUpdate d u else u).id = u.id
    rw [if_neg hu]

/-- Update on a present id: the row list is rewritten pointwise. -/
theorem update_pos (s : Store) (i : Nat) (d : UpdateData)
    (hany : (s.todos.any fun t => t.id == i) = true) :
    update s i d =
      .ok ⟨s.todos.map fun u => if u.id == i then applyUpdate d u else u,
        s.nextId⟩ := by
  unfold update
  rw [if_pos hany]

/-- Update on an absent id rejects. -/
theorem update_neg (s : Store) (i : Nat) (d : UpdateData)
    (hany : (s.todos.any fun t => t.id == i) = false) :
    update s i d = .error "P2025: record to update not found" := by
  unfold update
  rw [if_neg (fun hc => by rw [hany] at hc; exact Bool.noConfusion hc)]

/-- Delete on a present id: the matching rows are filtered out. -/
theorem delete_pos (s : Store) (i : Nat)
    (hany : (s.todos.any fun t => t.id == i) = true) :
    delete s i = .ok ⟨s.todos.filter fun t => t.id != i, s.nextId⟩ := by
  unfold delete
  rw [if_pos hany]

/-- Delete on an absent id rejects. -/
theorem delete_neg (s : Store) (i : Nat)
    (hany : (s.todos.any fun t => t.id == i) = false) :
    delete s i = .error "P2025: record to delete not found" := by
  unfold delete
  rw [if_neg (fun hc => by rw [hany] at hc; exact Bool.noConfusion hc)]

/-- The PUT handler on a present id responds 204 with the rewritten store. -/
theorem putHandler_found (s : Store) (i : Nat) (b : PutBody)
    (hany : (s.todos.any fun t => t.id == i) = true) :
    putHandler s i b =
      .ok (⟨204, .empty⟩,
        ⟨s.todos.map fun u => if u.id == i then applyUpdate b.toData u else u,
         s.nextId⟩) := by
  show (update s i b.toData).map _ = _
  rw [update_pos s i b.toData hany]
  rfl

/-- The PUT handler on an absent id propagates the rejection. -/
theorem putHandler_missing (s : Store) (i : Nat) (b : PutBody)
    (hany : (s.todos.any fun t => t.id == i) = false) :
    putHandler s i b = .error "P2025: record to update not found" := by
  show (update s i b.toData).map _ = _
  rw [update_neg s i b.toData hany]
  rfl

/-- The DELETE handler on a present id responds 204 with the filtered
store. -/
theorem deleteHandler_found (s : Store) (i : Nat)
    (hany : (s.todos.any fun t => t.id == i) = true) :
    deleteHandler s i =
      .ok (⟨204, .empty⟩, ⟨s.todos.filter fun t => t.id != i, s.nextId⟩) := by
  show (delete s i).map _ = _
  rw [delete_pos s i hany]
  rfl

/-- The DELETE handler on an absent id propagates the rejection. -/
theorem deleteHandler_missing (s : Store) (i : Nat)
    (hany : (s.todos.any fun t => t.id == i) = false) :
    deleteHandler s i = .error "P2025: record to delete not found" := by
  show (delete s i).map _ = _
  rw [delete_neg s i hany]
  rfl

/-- One step of a PUT on a present id, at the store level. -/
theorem stepStore_put_found (s : Store) (i : Nat) (b : PutBody)
    (hany : (s.todos.any fun t => t.id == i) = true) :
    stepStore s (.put i b) =
      ⟨s.todos.map fun u => if u.id == i then applyUpdate b.toData u else u,
       s.nextId⟩ := by
  show (match putHandler s i b with | .ok r => r.2 | .error _ => s) = _
  rw [putHandler_found s i b hany]

/-- One step of a PUT on an absent id leaves the store unchanged. -/
theorem stepStore_put_missing (s : Store) (i : Nat) (b : PutBody)
    (hany : (s.todos.any fun t => t.id == i) = false) :
    stepStore s (.put i b) = s := by
  show (match putHandler s i b with | .ok r => r.2 | .error _ => s) = _
  rw [putHandler_missing s i b hany]

/-- One step of a DELETE on a present id, at the store level. -/
theorem stepStore_del_found (s : Store) (i : Nat)
    (hany : (s.todos.any fun t => t.id == i) = true) :
    stepStore s (.del i) = ⟨s.todos.filter fun t => t.id != i, s.nextId⟩ := by
  show (match deleteHandler s i with | .ok r => r.2 | .error _ => s) = _
  rw [deleteHandler_found s i hany]

/-- One step of a DELETE on an absent id leaves the store unchanged. -/
theorem stepStore_del_missing (s : Store) (i : Nat)
    (hany : (s.todos.any fun t => t.id == i) = false) :
    stepStore s (.del i) = s := by
  show (match deleteHandler s i with | .ok r => r.2 | .error _ => s) = _
  rw [deleteHandler_missing s i hany]

/-- Lookup of a present id, at the handler level. -/
theorem getByIdHandler_found (s : Store) (i : Nat) (t : Todo)
    (h : findUnique s i = some t) :
    getByIdHandler s i = (⟨200, .todoJson t⟩, s) := by
  unfold getByIdHandler
  rw [h]

/-! ## Claim theorems -/

/-- C1: a POST whose body carries a title and no description inserts a new
record and responds 201 with the created record, whose is_done is false
and whose id is the server counter. -/
theorem post_with_title_only (s : Store) (title : String) :
    (postHandler s ⟨title, none, none, none⟩).1.status = 201 ∧
    (postHandler s ⟨title, none, none, none⟩).1.body =
      .todoJson ⟨s.nextId, title, none, false⟩ ∧
    (postHandler s ⟨title, none, none, none⟩).2.todos =
      s.todos ++ [⟨s.nextId, title, none, false⟩] ∧
    (postHandler s ⟨title, none, none, none⟩).2.nextId = s.nextId + 1 :=
  ⟨rfl, rfl, rfl, rfl⟩

/-- C3: fetching an id with no matching record succeeds with status 200
and the JSON literal null as body, leaving the store unchanged. -/
theorem get_missing_id_null (s : Store) (i : Nat)
    (h : findUnique s i = none) :
    getByIdHandler s i = (⟨200, .null⟩, s) := by
  unfold getByIdHandler
  rw [h]

/-- C3 witness: fetching id 5 from the fresh store. -/
theorem get_missing_id_null_witness :
    getByIdHandler initStore 5 = (⟨200, .null⟩, initStore) :=
  get_missing_id_null initStore 5 rfl

/-- C4: PUT and DELETE reject exactly when no record has the given id, and
on that path the store is unchanged. -/
theorem put_delete_reject_iff_missing (s : Store) (i : Nat) (b : PutBody) :
    ((∃ e, putHandler s i b = .error e) ↔ findUnique s i = none) ∧
    ((∃ e, deleteHandler s i = .error e) ↔ findUnique s i = none) ∧
    (findUnique s i = none →
      stepStore s (.put i b) = s ∧ stepStore s (.del i) = s) := by
  have key : (s.todos.any fun t => t.id == i) = false ↔ findUnique s i = none := by
    rw [findUnique, List.find?_eq_none]
    simp [List.any_eq_true]
  cases h : s.todos.any fun t => t.id == i with
  | false =>
    have hf : findUnique s i = none := key.mp h
    refine ⟨?_, ?_, fun _ => ⟨?_, ?_⟩⟩ <;>
      simp [putHandler, deleteHandler, update, delete, stepStore, h, hf,
        Except.map]
  | true =>
    have hf : findUnique s i ≠ none := fun hn => by
      have h2 := key.mpr hn
      rw [h] at h2
      exact Bool.noConfusion h2
    refine ⟨?_, ?_, fun hn => absurd hn hf⟩ <;>
      simp [putHandler, deleteHandler, update, delete, h, Except.map, hf]

/-- C7: the toggle button sends a PUT to the todo id URL whose body is the
full record with is_done inverted, chains refetch after the request, and
is labelled Completed when done and Pending otherwise. -/
theorem toggle_button_inverts_is_done (todo : Todo) :
    (UpdateButtonComponent todo).onClick.request =
      ⟨"PUT", "http://localhost:3000/api/todos/" ++ toString todo.id,
       .todoJson ⟨todo.id, todo.title, todo.description, !todo.is_done⟩⟩ ∧
    (UpdateButtonComponent todo).onClick.refetchAfter = true ∧
    (UpdateButtonComponent todo).label =
      (if todo.is_done then "Completed" else "Pending") := by
  unfold UpdateButtonComponent completeTodo
  cases h : todo.is_done <;> simp [h]

/-- C8: the POST handler forwards only title and description, so is_done
and id supplied in the body are ignored and the created record has
is_done false even when the body says otherwise. -/
theorem post_ignores_is_done_and_id (s : Store) (b : PostBody) :
    postHandler s b = postHandler s ⟨b.title, b.description, none, none⟩ ∧
    (postHandler s b).1.body =
      .todoJson ⟨s.nextId, b.title, b.description, false⟩ ∧
    (postHandler s b).2.todos =
      s.todos ++ [⟨s.nextId, b.title, b.description, false⟩] :=
  ⟨rfl, rfl, rfl⟩

/-- C10: both GET routes return the store exactly as it was. -/
theorem get_routes_do_not_modify (s : Store) (i : Nat) :
    (getAllHandler s).2 = s ∧ (getByIdHandler s i).2 = s := by
  refine ⟨rfl, ?_⟩
  unfold getByIdHandler
  cases findUnique s i <;> rfl

/-- C2: a PUT on a present id overwrites exactly the provided fields,
leaves absent fields unchanged, responds 204 with an empty body; in
particular updating is_done to true then fetching that id shows
is_done true. -/
theorem put_overwrites_provided_fields (s : Store) (i : Nat) (t : Todo)
    (b : PutBody) (h : findUnique s i = some t) :
    ∃ s2, putHandler s i b = .ok (⟨204, .empty⟩, s2) ∧
      findUnique s2 i = some (applyUpdate b.toData t) ∧
      (applyUpdate b.toData t).title = b.title.getD t.title ∧
      (applyUpdate b.toData t).description = b.description.getD t.description ∧
      (applyUpdate b.toData t).is_done = b.is_done.getD t.is_done ∧
      ∀ s3, putHandler s i ⟨none, none, some true, none⟩
          = .ok (⟨204, .empty⟩, s3) →
        (getByIdHandler s3 i).1 =
          ⟨200, .todoJson ⟨t.id, t.title, t.description, true⟩⟩ := by
  have hany : (s.todos.any fun u => u.id == i) = true := any_of_find _ _ _ h
  refine ⟨⟨s.todos.map fun u => if u.id == i then applyUpdate b.toData u else u,
      s.nextId⟩,
    putHandler_found s i b hany, ?_, rfl, rfl, rfl, ?_⟩
  · exact find_after_update s.todos i b.toData t h
  intro s3 h3
  rw [putHandler_found s i ⟨none, none, some true, none⟩ hany] at h3
  injection h3 with h4
  have hs3 : s3 = ⟨s.todos.map fun u => if u.id == i then
      applyUpdate (PutBody.toData ⟨none, none, some true, none⟩) u else u,
      s.nextId⟩ := (congrArg Prod.snd h4).symm
  subst hs3
  have hfind : findUnique ⟨s.todos.map fun u => if u.id == i then
      applyUpdate (PutBody.toData ⟨none, none, some true, none⟩) u else u,
      s.nextId⟩ i
      = some (applyUpdate (PutBody.toData ⟨none, none, some true, none⟩) t) :=
    find_after_update s.todos i _ t h
  rw [getByIdHandler_found _ i _ hfind]
  rfl

/-- C2 witness: a one-record store, its record at id 1, a PUT setting
is_done true. -/
theorem put_overwrites_provided_fields_witness :
    findUnique ⟨[⟨1, "a", none, false⟩], 2⟩ 1 = some ⟨1, "a", none, false⟩ ∧
    ∃ s2, putHandler ⟨[⟨1, "a", none, false⟩], 2⟩ 1
        ⟨some "b", none, some true, some 7⟩ = .ok (⟨204, .empty⟩, s2) ∧
      findUnique s2 1 = some ⟨1, "b", none, true⟩ :=
  ⟨rfl, (put_overwrites_provided_fields ⟨[⟨1, "a", none, false⟩], 2⟩ 1
      ⟨1, "a", none, false⟩ ⟨some "b", none, some true, some 7⟩ rfl).elim
    fun s2 hh => ⟨s2, hh.1, hh.2.1⟩⟩

/-- C9: a successful PUT keeps the addressed record's id, ignores an id in
the request body, and leaves every other record unchanged. -/
theorem put_keeps_id_and_frame (s : Store) (i : Nat) (t : Todo) (b : PutBody)
    (h : findUnique s i = some t) :
    putHandler s i b = putHandler s i ⟨b.title, b.description, b.is_done, none⟩ ∧
    ∃ s2, putHandler s i b = .ok (⟨204, .empty⟩, s2) ∧
      s2.nextId = s.nextId ∧
      s2.todos = (s.todos.map fun u =>
        if u.id == i then applyUpdate b.toData u else u) ∧
      (applyUpdate b.toData t).id = t.id ∧
      findUnique s2 i = some (applyUpdate b.toData t) ∧
      ∀ u ∈ s.todos, u.id ≠ i → u ∈ s2.todos := by
  have hany : (s.todos.any fun u => u.id == i) = true := any_of_find _ _ _ h
  refine ⟨rfl, ⟨s.todos.map fun u => if u.id == i then applyUpdate b.toData u
      else u, s.nextId⟩,
    putHandler_found s i b hany, rfl, rfl, applyUpdate_id _ _, ?_, ?_⟩
  · exact find_after_update s.todos i b.toData t h
  intro u hu hne
  have hfu : (if (u.id == i) = true then applyUpdate b.toData u else u) = u :=
    if_neg (fun hc => hne (eq_of_beq hc))
  exact List.mem_map.mpr ⟨u, hu, hfu⟩

/-- C9 witness: a two-record store; the PUT at id 2 preserves the record
at id 1. -/
theorem put_keeps_id_and_frame_witness :
    findUnique ⟨[⟨1, "a", none, false⟩, ⟨2, "b", none, false⟩], 3⟩ 2
      = some ⟨2, "b", none, false⟩ ∧
    ∃ s2, putHandler ⟨[⟨1, "a", none, false⟩, ⟨2, "b", none, false⟩], 3⟩ 2
        ⟨none, none, some true, some 9⟩ = .ok (⟨204, .empty⟩, s2) ∧
      (⟨1, "a", none, false⟩ : Todo) ∈ s2.todos :=
  ⟨rfl, (put_keeps_id_and_frame
      ⟨[⟨1, "a", none, false⟩, ⟨2, "b", none, false⟩], 3⟩ 2
      ⟨2, "b", none, false⟩ ⟨none, none, some true, some 9⟩ rfl).2.elim
    fun s2 hh => ⟨s2, hh.1,
      hh.2.2.2.2.2 ⟨1, "a", none, false⟩ (List.mem_cons_self _ _)
        (by decide)⟩⟩

/-- Store invariant: every id is below the autoincrement counter and the
ids are pairwise distinct. -/
def GoodIds (s : Store) : Prop :=
  (∀ t ∈ s.todos, t.id < s.nextId) ∧ (s.todos.map Todo.id).Nodup

/-- A rewritten row keeps its id. -/
theorem row_update_id (i : Nat) (d : UpdateData) (u : Todo) :
    (if (u.id == i) = true then applyUpdate d u else u).id = u.id := by
  by_cases hc : (u.id == i) = true
  · rw [if_pos hc, applyUpdate_id]
  · rw [if_neg hc]

/-- No request ever decreases the autoincrement counter. -/
theorem nextId_mono_step (s : Store) (op : Op) :
    s.nextId ≤ (stepStore s op).nextId := by
  cases op with
  | listAll => exact Nat.le_refl _
  | getOne i =>
    show s.nextId ≤ (getByIdHandler s i).2.nextId
    unfold getByIdHandler
    cases findUnique s i <;> exact Nat.le_refl _
  | post b => exact Nat.le_succ _
  | put i b =>
    cases hany : s.todos.any fun u => u.id == i with
    | true => rw [stepStore_put_found s i b hany]
    | false => rw [stepStore_put_missing s i b hany]
  | del i =>
    cases hany : s.todos.any fun u => u.id == i with
    | true => rw [stepStore_del_found s i hany]
    | false => rw [stepStore_del_missing s i hany]

/-- The counter is monotone along any request sequence. -/
theorem nextId_mono_runFrom (s : Store) (L : List Op) :
    s.nextId ≤ (runFrom s L).nextId := by
  induction L generalizing s with
  | nil => exact Nat.le_refl _
  | cons op L ih =>
    exact Nat.le_trans (nextId_mono_step s op) (ih (stepStore s op))

/-- One request preserves the store invariant. -/
theorem goodIds_step (s : Store) (op : Op) (h : GoodIds s) :
    GoodIds (stepStore s op) := by
  obtain ⟨hbound, hnodup⟩ := h
  cases op with
  | listAll => exact ⟨hbound, hnodup⟩
  | getOne i =>
    show GoodIds (getByIdHandler s i).2
    unfold getByIdHandler
    cases findUnique s i <;> exact ⟨hbound, hnodup⟩
  | post b =>
    constructor
    · intro t ht
      have ht2 : t ∈ s.todos ++
          [(⟨s.nextId, b.title, b.description, false⟩ : Todo)] := ht
      show t.id < s.nextId + 1
      rcases List.mem_append.mp ht2 with hmem | hmem
      · exact Nat.lt_succ_of_lt (hbound t hmem)
      · rw [List.mem_singleton.mp hmem]
        exact Nat.lt_succ_self _
    · show ((s.todos ++
          [(⟨s.nextId, b.title, b.description, false⟩ : Todo)]).map
            Todo.id).Nodup
      rw [List.map_append, List.nodup_append]
      refine ⟨hnodup, List.nodup_singleton _, ?_⟩
      intro a ha hin
      rcases List.mem_map.mp ha with ⟨u, hu, rfl⟩
      have hlt : u.id < s.nextId := hbound u hu
      have heq : u.id = s.nextId := List.mem_singleton.mp hin
      exact absurd heq (Nat.ne_of_lt hlt)
  | put i b =>
    cases hany : s.todos.any fun u => u.id == i with
    | false =>
      rw [stepStore_put_missing s i b hany]
      exact ⟨hbound, hnodup⟩
    | true =>
      rw [stepStore_put_found s i b hany]
      constructor
      · intro t ht
        show t.id < s.nextId
        rcases List.mem_map.mp ht with ⟨u, hu, rfl⟩
        rw [row_update_id]
        exact hbound u hu
      · show ((s.todos.map fun u =>
            if u.id == i then applyUpdate b.toData u else u).map Todo.id).Nodup
        rw [map_id_update]
        exact hnodup
  | del i =>
    cases hany : s.todos.any fun u => u.id == i with
    | false =>
      rw [stepStore_del_missing s i hany]
      exact ⟨hbound, hnodup⟩
    | true =>
      rw [stepStore_del_found s i hany]
      constructor
      · intro t ht
        exact hbound t (List.mem_filter.mp ht).1
      · show ((s.todos.filter fun u => u.id != i).map Todo.id).Nodup
        exact hnodup.sublist ((List.filter_sublist s.todos).map Todo.id)

/-- The store invariant holds along any request sequence. -/
theorem goodIds_runFrom (s : Store) (L : List Op) (h : GoodIds s) :
    GoodIds (runFrom s L) := by
  induction L generalizing s with
  | nil => exact h
  | cons op L ih => exact ih (stepStore s op) (goodIds_step s op h)

/-- Every reachable store satisfies the invariant. -/
theorem goodIds_runOps (ops : List Op) : GoodIds (runOps ops) :=
  goodIds_runFrom initStore ops
    ⟨fun t ht => absurd ht (List.not_mem_nil t), List.nodup_nil⟩

/-- An id below the counter and absent from the rows stays that way. -/
def IdAbsent (i : Nat) (s : Store) : Prop :=
  (∀ t ∈ s.todos, t.id ≠ i) ∧ i < s.nextId

/-- One request preserves the absence of a below-counter id. -/
theorem idAbsent_step (i : Nat) (s : Store) (op : Op) (h : IdAbsent i s) :
    IdAbsent i (stepStore s op) := by
  obtain ⟨habs, hlt⟩ := h
  cases op with
  | listAll => exact ⟨habs, hlt⟩
  | getOne j =>
    show IdAbsent i (getByIdHandler s j).2
    unfold getByIdHandler
    cases findUnique s j <;> exact ⟨habs, hlt⟩
  | post b =>
    constructor
    · intro t ht
      have ht2 : t ∈ s.todos ++
          [(⟨s.nextId, b.title, b.description, false⟩ : Todo)] := ht
      rcases List.mem_append.mp ht2 with hmem | hmem
      · exact habs t hmem
      · rw [List.mem_singleton.mp hmem]
        show s.nextId ≠ i
        exact fun hc => absurd (hc ▸ hlt) (Nat.lt_irrefl _)
    · exact Nat.lt_succ_of_lt hlt
  | put j b =>
    cases hany : s.todos.any fun u => u.id == j with
    | false =>
      rw [stepStore_put_missing s j b hany]
      exact ⟨habs, hlt⟩
    | true =>
      rw [stepStore_put_found s j b hany]
      constructor
      · intro t ht
        rcases List.mem_map.mp ht with ⟨u, hu, rfl⟩
        rw [row_update_id]
        exact habs u hu
      · exact hlt
  | del j =>
    cases hany : s.todos.any fun u => u.id == j with
    | false =>
      rw [stepStore_del_missing s j hany]
      exact ⟨habs, hlt⟩
    | true =>
      rw [stepStore_del_found s j hany]
      constructor
      · intro t ht
        exact habs t (List.mem_filter.mp ht).1
      · exact hlt

/-- Absence of a below-counter id persists along any request sequence. -/
theorem idAbsent_runFrom (i : Nat) (s : Store) (L : List Op)
    (h : IdAbsent i s) : IdAbsent i (runFrom s L) := by
  induction L generalizing s with
  | nil => exact h
  | cons op L ih => exact ih (stepStore s op) (idAbsent_step i s op h)

/-- C5: deleting a present id in a reachable store responds 204 with no
body, removes exactly that record, and no later list result (after any
further request sequence) contains a record with that id. -/
theorem delete_removes_from_lists (ops L : List Op) (i : Nat) (t : Todo)
    (h : findUnique (runOps ops) i = some t) :
    ∃ s2, deleteHandler (runOps ops) i = .ok (⟨204, .empty⟩, s2) ∧
      s2.todos = (runOps ops).todos.filter (fun u => u.id != i) ∧
      (∀ u ∈ findMany s2, u.id ≠ i) ∧
      (∀ u ∈ findMany (runFrom s2 L), u.id ≠ i) := by
  have hany : ((runOps ops).todos.any fun u => u.id == i) = true :=
    any_of_find _ _ _ h
  refine ⟨⟨(runOps ops).todos.filter fun u => u.id != i, (runOps ops).nextId⟩,
    deleteHandler_found (runOps ops) i hany, rfl, ?_, ?_⟩
  · intro u hu
    exact bne_iff_ne.mp (List.mem_filter.mp hu).2
  · have hgood := goodIds_runOps ops
    have h2 : (runOps ops).todos.find? (fun u => u.id == i) = some t := h
    have hp := List.find?_some h2
    have hti : t.id = i := eq_of_beq hp
    have hmem : t ∈ (runOps ops).todos := List.mem_of_find?_eq_some h2
    have hlt : i < (runOps ops).nextId := hti ▸ hgood.1 t hmem
    have habs : IdAbsent i ⟨(runOps ops).todos.filter fun u => u.id != i,
        (runOps ops).nextId⟩ :=
      ⟨fun u hu => bne_iff_ne.mp (List.mem_filter.mp hu).2, hlt⟩
    exact (idAbsent_runFrom i _ L habs).1

/-- C5 witness: create one todo, delete id 1, then create another. -/
theorem delete_removes_from_lists_witness :
    findUnique (runOps [Op.post ⟨"a", none, none, none⟩]) 1
      = some ⟨1, "a", none, false⟩ ∧
    ∃ s2, deleteHandler (runOps [Op.post ⟨"a", none, none, none⟩]) 1
        = .ok (⟨204, .empty⟩, s2) ∧
      s2.todos = (runOps [Op.post ⟨"a", none, none, none⟩]).todos.filter
        (fun u => u.id != 1) ∧
      (∀ u ∈ findMany s2, u.id ≠ 1) ∧
      (∀ u ∈ findMany (runFrom s2 [Op.post ⟨"b", none, none, none⟩]),
        u.id ≠ 1) :=
  ⟨rfl, delete_removes_from_lists [Op.post ⟨"a", none, none, none⟩]
    [Op.post ⟨"b", none, none, none⟩] 1 ⟨1, "a", none, false⟩ rfl⟩

/-- C6: in every reachable store the record ids are pairwise distinct and
below the counter, a POST assigns the counter as id regardless of the
request body, and the counter never decreases under further requests. -/
theorem ids_unique_assigned_monotonically (ops L : List Op) (b : PostBody) :
    ((runOps ops).todos.map Todo.id).Nodup ∧
    (∀ t ∈ (runOps ops).todos, t.id < (runOps ops).nextId) ∧
    (postHandler (runOps ops) b).1.body =
      .todoJson ⟨(runOps ops).nextId, b.title, b.description, false⟩ ∧
    (runOps ops).nextId ≤ (runFrom (runOps ops) L).nextId := by
  obtain ⟨hbound, hnodup⟩ := goodIds_runOps ops
  exact ⟨hnodup, hbound, rfl, nextId_mono_runFrom _ L⟩

end Frello
